import Mathlib

/-!
Verification development for the datalad crcns crawler pipeline
(`src/datalad/crawler/pipelines/crcns.py`) and the `Unlock` interface
(`src/datalad/interface/unlock.py`).

The pipeline-construction functions are embedded faithfully from the
source.  The individual node implementations (`Annexificator`,
`crawl_url`, `skip_if`, `find_files`, the pipeline engine) are not part
of the provided sources; where a claim depends on their behaviour, the
behaviour is modelled from the specification and marked as such.
-/

namespace Datalad

/-- A pipeline node, as constructed by the crcns pipeline functions.
Each constructor records the arguments given at construction time in
`src/datalad/crawler/pipelines/crcns.py`.  A nested pipeline is itself
a node (`nested`). -/
inductive Node where
  | crawl_url (url : String) (matchers : List String)
  | parse_checksums (digest : String)
  | skip_if (field : String) (pattern : String) (useRe : Bool)
  | a_href_match (pattern : String) (min_count : Option Nat)
  | sub_node (field : String) (replacements : List (String × String))
  | assign_node (fields : List (String × String)) (interpolate : Bool)
  | annex_add
  | switch_branch (branch : String)
  | merge_branch (src : String) (strategy : Option String) (commit : Bool)
      (allow_unrelated : Bool)
  | find_files (regex : String) (fail_if_none : Bool)
  | add_archive_content (existing : String) (strip_leading_dirs : Bool)
      (delete : Bool) (leading_dirs_consider : List String)
      (leading_dirs_depth : Nat) (use_current_dir : Bool)
      (rename : Option (List (String × String))) (exclude : String)
  | initiate_dataset (template : String) (data_fields : List String)
      (existing : String)
  | nested (sub : List Node)
  | finalize (cleanup : Bool)

/-- Embedding of `pipeline(dataset, dataset_category, versioned_urls, tarballs,
data_origin, use_current_dir, leading_dirs_depth, rename)` from
`src/datalad/crawler/pipelines/crcns.py` lines 131-218.  A `ValueError`
raised by the Python code is an `Except.error`; in that case no node
list is produced, so nothing can run. -/
def pipeline (dataset dataset_category : String) (versioned_urls : Bool)
    (tarballs : Bool) (data_origin : String) (use_current_dir : Bool)
    (leading_dirs_depth : Nat) (rename : Option (List (String × String))) :
    Except String (List Node) := do
  let _ := versioned_urls
  let dataset_url :=
    "http://crcns.org/data-sets/" ++ dataset_category ++ "/" ++ dataset
  let crawler := Node.crawl_url dataset_url []
  let urls_pipe ←
    if data_origin = "checksums" then
      Except.ok [Node.crawl_url
              ("https://portal.nersc.gov/project/crcns/download/" ++ dataset
                ++ "/checksums.md5") [],
            Node.parse_checksums "md5",
            Node.skip_if "url" "(checksums.md5|filelist.txt)$" true]
    else if data_origin = "urls" then
      Except.ok [crawler,
            Node.a_href_match ".*/.*\\.(tgz|tar.*|zip)" (some 1)]
    else
      Except.error ("ValueError: " ++ data_origin)
  let urls_pipe := urls_pipe ++
    (match rename with
     | some r => [Node.sub_node "filename" r]
     | none => [])
  Except.ok [
    Node.switch_branch "incoming",
    Node.nested [Node.nested (urls_pipe ++ [Node.annex_add])],
    Node.switch_branch "incoming-processed",
    Node.nested [
      Node.merge_branch "incoming" (some "theirs") false true,
      Node.nested [
        Node.find_files "\\.(zip|tgz|tar(\\..+)?)$" tarballs,
        Node.add_archive_content "archive-suffix" true true
          ["crcns.*", dataset] leading_dirs_depth use_current_dir rename
          ".*__MACOSX.*"
      ]
    ],
    Node.switch_branch "master",
    Node.merge_branch "incoming-processed" none true true,
    Node.finalize true
  ]

/-- Embedding of `superdataset_pipeline()` from
`src/datalad/crawler/pipelines/crcns.py` lines 86-108. -/
def superdataset_pipeline : List Node :=
  [Node.crawl_url "http://crcns.org/data-sets" [".*/data-sets/[^#/]+$"],
   Node.a_href_match
     "(?P<url>.*/data-sets/(?P<dataset_category>[^/#]+)/(?P<dataset>[^_/#]+))$"
     none,
   Node.assign_node [("dataset_name", "%(dataset)s")] true,
   Node.initiate_dataset "crcns" ["dataset_category", "dataset"] "skip"]

mutual

/-- Flatten one node: a nested pipeline contributes its flattened body,
any other node contributes itself. -/
def flatNode : Node → List Node
  | Node.nested sub => flatList sub
  | n => [n]

/-- Flatten a node list, dissolving nested sub-pipelines while keeping
the order in which the engine drives the nodes. -/
def flatList : List Node → List Node
  | [] => []
  | n :: ns => flatNode n ++ flatList ns

end

/-- Pair every node of a flattened pipeline with the branch that is
checked out when the node runs: a `switch_branch` node changes the
branch for all subsequent nodes. -/
def annotate : String → List Node → List (String × Node)
  | _, [] => []
  | b, Node.switch_branch b' :: ns => (b, Node.switch_branch b') :: annotate b' ns
  | b, n :: ns => (b, n) :: annotate b ns

/-- Nodes that write content into the store (capture additions, archive
expansion, merges).  `finalize` only commits bookkeeping state and
`find_files` only reads the working tree. -/
def writesStore : Node → Bool
  | Node.annex_add => true
  | Node.add_archive_content _ _ _ _ _ _ _ _ => true
  | Node.merge_branch _ _ _ _ => true
  | _ => false

/-- Capture and store-add nodes: the fetch/extract sub-pipeline nodes
and the two nodes that add content directly. -/
def isCaptureOrAdd : Node → Bool
  | Node.crawl_url _ _ => true
  | Node.parse_checksums _ => true
  | Node.a_href_match _ _ => true
  | Node.skip_if _ _ _ => true
  | Node.sub_node _ _ => true
  | Node.assign_node _ _ => true
  | Node.annex_add => true
  | Node.add_archive_content _ _ _ _ _ _ _ _ => true
  | _ => false

/-- Whether `p` occurs as a contiguous segment of `l`. -/
def listHasInfix (p : List Char) : List Char → Bool
  | [] => List.isPrefixOf p []
  | c :: cs => List.isPrefixOf p (c :: cs) || listHasInfix p cs

/-- Matches a filename against the `find_files` regular expression
passed at crcns.py line 201, `\.(zip|tgz|tar(\..+)?)$` (searched, so an
end-of-string suffix pattern): the name ends with `.zip`, `.tgz`,
`.tar`, or has a `.tar.` followed by at least one further character. -/
def isArchiveName (f : String) : Bool :=
  List.isSuffixOf ".zip".toList f.toList ||
  List.isSuffixOf ".tgz".toList f.toList ||
  List.isSuffixOf ".tar".toList f.toList ||
  listHasInfix ".tar.".toList f.toList.dropLast

/-- One staging branch of the content store: how many commits it holds
and the files of its tree. -/
structure Branch where
  tip : Nat
  files : List String
deriving DecidableEq, Repr

/-- Modelled from the spec: the content store as seen by the staged
ingestion protocol (spec section 4.3) — the three staging branches, the
currently checked-out branch, and, per merge target, the tip of the
source branch at the last merge (how the store decides that a merge
"introduces no changes"). -/
structure Store where
  current : String
  incoming : Branch
  processed : Branch
  master : Branch
  procMergedFrom : Option Nat
  masterMergedFrom : Option Nat
deriving DecidableEq, Repr

/-- Modelled from the spec: the capture phase (protocol steps 1-2).
Switch to `incoming`; the fetch/extract sub-pipeline enumerates the
source and the store-add leaves the `incoming` tree equal to the
fetched content, committing only if that changed anything. -/
def captureStep (fetched : List String) (s : Store) : Store :=
  if s.incoming.files = fetched then { s with current := "incoming" }
  else { s with current := "incoming",
                incoming := { tip := s.incoming.tip + 1, files := fetched } }

/-- Modelled from the spec: protocol steps 3-4.  Switch to
`incoming-processed` and merge `incoming` into it (theirs-biased, no
auto-commit, unrelated histories allowed).  If the merge introduces no
changes — `incoming`'s tip was already merged — normalization is
skipped.  Otherwise `find_files` fails fatally when archives were
declared mandatory and none match in the merged tree; else the archives
are expanded (`extractF`) and the result committed. -/
def processStep (tarballs : Bool) (mergeF : List String → List String → List String)
    (extractF : List String → List String) (s : Store) : Except String Store :=
  if s.procMergedFrom = some s.incoming.tip then
    .ok { s with current := "incoming-processed" }
  else if tarballs && !((mergeF s.processed.files s.incoming.files).any isArchiveName) then
    .error "RuntimeError: find_files: no files found matching \\.(zip|tgz|tar(\\..+)?)$"
  else
    .ok { s with
            current := "incoming-processed",
            processed := { tip := s.processed.tip + 1,
                           files := extractF (mergeF s.processed.files s.incoming.files) },
            procMergedFrom := some s.incoming.tip }

/-- Modelled from the spec: protocol step 5.  Switch to `master` and
merge `incoming-processed` into it, committing only when the merge
introduces changes. -/
def publishStep (mergeF : List String → List String → List String)
    (s : Store) : Store :=
  if s.masterMergedFrom = some s.processed.tip then { s with current := "master" }
  else { s with
          current := "master",
          master := { tip := s.master.tip + 1,
                      files := mergeF s.master.files s.processed.files },
          masterMergedFrom := some s.processed.tip }

/-- Modelled from the spec: one run of the ingestion pipeline returned
by `pipeline` — capture, normalization, publication in the order of the
node list; `finalize(cleanup=True)` only removes transient working
state and so leaves the modelled store unchanged. -/
def runIngestion (tarballs : Bool)
    (fetched : List String)
    (mergeF : List String → List String → List String)
    (extractF : List String → List String) (s : Store) : Except String Store :=
  (processStep tarballs mergeF extractF (captureStep fetched s)).map
    (publishStep mergeF)

lemma captureStep_incoming_files (fetched : List String) (s : Store) :
    (captureStep fetched s).incoming.files = fetched := by
  unfold captureStep
  split
  next h => simpa using h
  next h => rfl

lemma captureStep_fixed (fetched : List String) (s : Store)
    (h : s.incoming.files = fetched) :
    captureStep fetched s = { s with current := "incoming" } := by
  unfold captureStep
  simp [h]

lemma captureStep_other (fetched : List String) (s : Store) :
    (captureStep fetched s).processed = s.processed ∧
    (captureStep fetched s).master = s.master ∧
    (captureStep fetched s).procMergedFrom = s.procMergedFrom ∧
    (captureStep fetched s).masterMergedFrom = s.masterMergedFrom := by
  unfold captureStep
  split <;> simp

lemma processStep_ok_inv (t : Bool) (mF : List String → List String → List String)
    (eF : List String → List String) (s s' : Store)
    (h : processStep t mF eF s = .ok s') :
    s'.procMergedFrom = some s'.incoming.tip ∧
    s'.incoming = s.incoming ∧
    s'.master = s.master ∧
    s'.masterMergedFrom = s.masterMergedFrom := by
  unfold processStep at h
  split at h
  next hc =>
    simp only [Except.ok.injEq] at h
    subst h
    simpa using hc
  next hc =>
    split at h
    · exact absurd h (by simp)
    · simp only [Except.ok.injEq] at h
      subst h
      simp

lemma processStep_skip (t : Bool) (mF : List String → List String → List String)
    (eF : List String → List String) (s : Store)
    (h : s.procMergedFrom = some s.incoming.tip) :
    processStep t mF eF s = .ok { s with current := "incoming-processed" } := by
  unfold processStep
  rw [if_pos h]

lemma publishStep_inv (mF : List String → List String → List String) (s : Store) :
    (publishStep mF s).masterMergedFrom = some (publishStep mF s).processed.tip ∧
    (publishStep mF s).processed = s.processed ∧
    (publishStep mF s).incoming = s.incoming ∧
    (publishStep mF s).procMergedFrom = s.procMergedFrom := by
  unfold publishStep
  split
  next h => simpa using h
  next h => simp

lemma publishStep_skip (mF : List String → List String → List String) (s : Store)
    (h : s.masterMergedFrom = some s.processed.tip) :
    publishStep mF s = { s with current := "master" } := by
  unfold publishStep
  rw [if_pos h]

/-- A successful ingestion run establishes the invariants the
idempotence shortcut tests on the next run: the `incoming` tree equals
the fetched source content, and each merge target records the tip of
its merge source. -/
lemma runIngestion_ok_inv (t : Bool) (fetched : List String)
    (mF : List String → List String → List String)
    (eF : List String → List String) (s s₁ : Store)
    (h : runIngestion t fetched mF eF s = .ok s₁) :
    s₁.incoming.files = fetched ∧
    s₁.procMergedFrom = some s₁.incoming.tip ∧
    s₁.masterMergedFrom = some s₁.processed.tip := by
  unfold runIngestion at h
  cases hp : processStep t mF eF (captureStep fetched s) with
  | error e => rw [hp] at h; simp [Except.map] at h
  | ok smid =>
    rw [hp] at h
    simp only [Except.map, Except.ok.injEq] at h
    subst h
    obtain ⟨hm1, hm2, hm3, hm4⟩ := processStep_ok_inv t mF eF _ _ hp
    obtain ⟨hp1, hp2, hp3, hp4⟩ := publishStep_inv mF smid
    refine ⟨?_, ?_, hp1⟩
    · rw [hp3, hm2, captureStep_incoming_files]
    · rw [hp4, hp3, hm1]

/-- C1.  Running the full ingestion pipeline twice in succession with
no change in the source content yields zero new commits on
`incoming-processed` and `master` after the second run: the tips of
both branches after the second run equal their values after the first
run (indeed the second run is a no-op past the capture phase). -/
theorem ingestion_idempotent (t : Bool) (fetched : List String)
    (mF : List String → List String → List String)
    (eF : List String → List String) (s s₁ s₂ : Store)
    (h₁ : runIngestion t fetched mF eF s = .ok s₁)
    (h₂ : runIngestion t fetched mF eF s₁ = .ok s₂) :
    s₂.processed.tip = s₁.processed.tip ∧ s₂.master.tip = s₁.master.tip := by
  obtain ⟨hin, hproc, hmast⟩ := runIngestion_ok_inv t fetched mF eF s s₁ h₁
  have hcap : captureStep fetched s₁ = { s₁ with current := "incoming" } :=
    captureStep_fixed fetched s₁ hin
  have hps : processStep t mF eF (captureStep fetched s₁) =
      .ok { s₁ with current := "incoming-processed" } := by
    rw [hcap]
    exact processStep_skip t mF eF _ (by simpa using hproc)
  have hpub : publishStep mF { s₁ with current := "incoming-processed" } =
      { s₁ with current := "master" } := by
    exact publishStep_skip mF _ (by simpa using hmast)
  unfold runIngestion at h₂
  rw [hps] at h₂
  simp only [Except.map, hpub, Except.ok.injEq] at h₂
  subst h₂
  exact ⟨rfl, rfl⟩

/-- Witness for C1: a concrete first run from an empty store, after
which the second run is the identity on the store (up to the final
checked-out branch) and creates no commits. -/
theorem ingestion_idempotent_witness :
    runIngestion false ["a"] (fun _ b => b) id
        ⟨"", ⟨0, []⟩, ⟨0, []⟩, ⟨0, []⟩, none, none⟩ =
      .ok ⟨"master", ⟨1, ["a"]⟩, ⟨1, ["a"]⟩, ⟨1, ["a"]⟩, some 1, some 1⟩ ∧
    runIngestion false ["a"] (fun _ b => b) id
        ⟨"master", ⟨1, ["a"]⟩, ⟨1, ["a"]⟩, ⟨1, ["a"]⟩, some 1, some 1⟩ =
      .ok ⟨"master", ⟨1, ["a"]⟩, ⟨1, ["a"]⟩, ⟨1, ["a"]⟩, some 1, some 1⟩ ∧
    (Store.mk "master" ⟨1, ["a"]⟩ ⟨1, ["a"]⟩ ⟨1, ["a"]⟩ (some 1) (some 1)).processed.tip =
        (Store.mk "master" ⟨1, ["a"]⟩ ⟨1, ["a"]⟩ ⟨1, ["a"]⟩ (some 1) (some 1)).processed.tip ∧
    (Store.mk "master" ⟨1, ["a"]⟩ ⟨1, ["a"]⟩ ⟨1, ["a"]⟩ (some 1) (some 1)).master.tip =
        (Store.mk "master" ⟨1, ["a"]⟩ ⟨1, ["a"]⟩ ⟨1, ["a"]⟩ (some 1) (some 1)).master.tip := by
  refine ⟨rfl, rfl, ?_⟩
  exact ingestion_idempotent false ["a"] (fun _ b => b) id
    ⟨"", ⟨0, []⟩, ⟨0, []⟩, ⟨0, []⟩, none, none⟩
    ⟨"master", ⟨1, ["a"]⟩, ⟨1, ["a"]⟩, ⟨1, ["a"]⟩, some 1, some 1⟩
    ⟨"master", ⟨1, ["a"]⟩, ⟨1, ["a"]⟩, ⟨1, ["a"]⟩, some 1, some 1⟩
    rfl rfl

/-- C2.  In every pipeline configuration that yields a node list,
`master` only ever receives content through the single
`merge_branch('incoming-processed')` node that runs after the switch to
`master`; every capture or store-add node runs on a branch other than
`master`. -/
theorem master_receives_only_processed_merge
    (d c : String) (v t : Bool) (dor : String) (ucd : Bool) (ldd : Nat)
    (rn : Option (List (String × String))) (ns : List Node)
    (h : pipeline d c v t dor ucd ldd rn = .ok ns) :
    (∀ p ∈ annotate "" (flatList ns), p.1 = "master" → writesStore p.2 = true →
        p.2 = Node.merge_branch "incoming-processed" none true true) ∧
    (∀ p ∈ annotate "" (flatList ns), isCaptureOrAdd p.2 = true → p.1 ≠ "master") ∧
    ("master", Node.merge_branch "incoming-processed" none true true) ∈
      annotate "" (flatList ns) := by
  by_cases h1 : dor = "checksums"
  · subst h1
    rcases rn with _ | r <;>
      · simp only [pipeline, if_pos rfl, if_true, bind, Except.bind,
                   Except.ok.injEq] at h
        subst h
        refine ⟨?_, ?_, ?_⟩ <;>
          simp [flatList, flatNode, annotate, writesStore, isCaptureOrAdd,
                List.forall_mem_cons]
  · by_cases h2 : dor = "urls"
    · subst h2
      rcases rn with _ | r <;>
        · simp only [pipeline, if_neg h1, if_pos rfl, if_true, bind, Except.bind,
                     Except.ok.injEq] at h
          subst h
          refine ⟨?_, ?_, ?_⟩ <;>
            simp [flatList, flatNode, annotate, writesStore, isCaptureOrAdd,
                  List.forall_mem_cons]
    · simp [pipeline, if_neg h1, if_neg h2, bind, Except.bind] at h

/-- The node list produced by
`pipeline("pvc-1", "vc", data_origin="checksums")` with default options
and no rename rules; used as the concrete instance in witnesses. -/
def exampleNodes : List Node :=
  [Node.switch_branch "incoming",
   Node.nested [Node.nested
     [Node.crawl_url
        "https://portal.nersc.gov/project/crcns/download/pvc-1/checksums.md5" [],
      Node.parse_checksums "md5",
      Node.skip_if "url" "(checksums.md5|filelist.txt)$" true,
      Node.annex_add]],
   Node.switch_branch "incoming-processed",
   Node.nested [
     Node.merge_branch "incoming" (some "theirs") false true,
     Node.nested [
       Node.find_files "\\.(zip|tgz|tar(\\..+)?)$" true,
       Node.add_archive_content "archive-suffix" true true ["crcns.*", "pvc-1"]
         2 false none ".*__MACOSX.*"]],
   Node.switch_branch "master",
   Node.merge_branch "incoming-processed" none true true,
   Node.finalize true]

/-- Witness for C2: the concrete checksums pipeline for dataset
`pvc-1`, on which the master-branch invariant is instantiated. -/
theorem master_receives_only_processed_merge_witness :
    pipeline "pvc-1" "vc" false true "checksums" false 2 none =
      .ok exampleNodes ∧
    ((∀ p ∈ annotate "" (flatList exampleNodes), p.1 = "master" →
          writesStore p.2 = true →
          p.2 = Node.merge_branch "incoming-processed" none true true) ∧
     (∀ p ∈ annotate "" (flatList exampleNodes), isCaptureOrAdd p.2 = true →
          p.1 ≠ "master") ∧
     ("master", Node.merge_branch "incoming-processed" none true true) ∈
       annotate "" (flatList exampleNodes)) :=
  ⟨rfl, master_receives_only_processed_merge "pvc-1" "vc" false true
     "checksums" false 2 none exampleNodes rfl⟩

/-- C3.  In every node list the pipeline returns, a merge of
`incoming` exists, is annotated to run on `incoming-processed`, and
every such merge carries strategy `theirs`, `commit=False` and
`allow_unrelated=True`. -/
theorem incoming_merge_theirs_nocommit_unrelated
    (d c : String) (v t : Bool) (dor : String) (ucd : Bool) (ldd : Nat)
    (rn : Option (List (String × String))) (ns : List Node)
    (h : pipeline d c v t dor ucd ldd rn = .ok ns) :
    ("incoming-processed", Node.merge_branch "incoming" (some "theirs") false true) ∈
        annotate "" (flatList ns) ∧
    (∀ st cm au, Node.merge_branch "incoming" st cm au ∈ flatList ns →
        st = some "theirs" ∧ cm = false ∧ au = true) := by
  by_cases h1 : dor = "checksums"
  · subst h1
    rcases rn with _ | r <;>
      · simp only [pipeline, if_pos rfl, if_true, bind, Except.bind,
                   Except.ok.injEq] at h
        subst h
        refine ⟨by simp [flatList, flatNode, annotate], ?_⟩
        intro st cm au hm
        simpa [flatList, flatNode] using hm
  · by_cases h2 : dor = "urls"
    · subst h2
      rcases rn with _ | r <;>
        · simp only [pipeline, if_neg h1, if_pos rfl, if_true, bind, Except.bind,
                     Except.ok.injEq] at h
          subst h
          refine ⟨by simp [flatList, flatNode, annotate], ?_⟩
          intro st cm au hm
          simpa [flatList, flatNode] using hm
    · simp [pipeline, if_neg h1, if_neg h2, bind, Except.bind] at h

/-- Witness for C3: instantiated on the concrete checksums pipeline for
dataset `pvc-1`. -/
theorem incoming_merge_theirs_nocommit_unrelated_witness :
    pipeline "pvc-1" "vc" false true "checksums" false 2 none =
      .ok exampleNodes ∧
    (("incoming-processed",
        Node.merge_branch "incoming" (some "theirs") false true) ∈
        annotate "" (flatList exampleNodes) ∧
     (∀ st cm au, Node.merge_branch "incoming" st cm au ∈ flatList exampleNodes →
        st = some "theirs" ∧ cm = false ∧ au = true)) :=
  ⟨rfl, incoming_merge_theirs_nocommit_unrelated "pvc-1" "vc" false true
     "checksums" false 2 none exampleNodes rfl⟩

/-- C4.  For any `data_origin` other than `checksums` and `urls`, the
pipeline constructor raises `ValueError` — no node list exists, so no
node (network or store activity) can ever run.  Whenever a node list is
produced, the manifest-based strategy (`parse_checksums`) is present
exactly when `data_origin = "checksums"` and the link-based strategy
(`a_href_match`) exactly when `data_origin = "urls"`; never both. -/
theorem data_origin_validated
    (d c : String) (v t : Bool) (dor : String) (ucd : Bool) (ldd : Nat)
    (rn : Option (List (String × String))) :
    (dor ≠ "checksums" → dor ≠ "urls" →
        pipeline d c v t dor ucd ldd rn = .error ("ValueError: " ++ dor)) ∧
    (∀ ns, pipeline d c v t dor ucd ldd rn = .ok ns →
        ((∃ dg, Node.parse_checksums dg ∈ flatList ns) ↔ dor = "checksums") ∧
        ((∃ p mc, Node.a_href_match p mc ∈ flatList ns) ↔ dor = "urls") ∧
        ¬((∃ dg, Node.parse_checksums dg ∈ flatList ns) ∧
          (∃ p mc, Node.a_href_match p mc ∈ flatList ns))) := by
  constructor
  · intro h1 h2
    simp [pipeline, if_neg h1, if_neg h2, bind, Except.bind]
  · intro ns h
    by_cases h1 : dor = "checksums"
    · subst h1
      rcases rn with _ | r <;>
        · simp only [pipeline, if_pos rfl, if_true, bind, Except.bind,
                     Except.ok.injEq] at h
          subst h
          refine ⟨by simp [flatList, flatNode], by simp [flatList, flatNode], ?_⟩
          simp [flatList, flatNode]
    · by_cases h2 : dor = "urls"
      · subst h2
        rcases rn with _ | r <;>
          · simp only [pipeline, if_neg h1, if_pos rfl, if_true, bind,
                       Except.bind, Except.ok.injEq] at h
            subst h
            refine ⟨by simp [flatList, flatNode, h1],
                    by simp [flatList, flatNode], ?_⟩
            simp [flatList, flatNode]
      · simp [pipeline, if_neg h1, if_neg h2, bind, Except.bind] at h

/-- Witness for C4: `data_origin="nersc"` is rejected with a
`ValueError` before anything can run, and the concrete checksums
pipeline selects the manifest strategy and not the link strategy. -/
theorem data_origin_validated_witness :
    pipeline "pvc-1" "vc" false true "nersc" false 2 none =
      .error ("ValueError: " ++ "nersc") ∧
    (((∃ dg, Node.parse_checksums dg ∈ flatList exampleNodes) ↔
        "checksums" = "checksums") ∧
     ((∃ p mc, Node.a_href_match p mc ∈ flatList exampleNodes) ↔
        "checksums" = "urls") ∧
     ¬((∃ dg, Node.parse_checksums dg ∈ flatList exampleNodes) ∧
       (∃ p mc, Node.a_href_match p mc ∈ flatList exampleNodes))) :=
  ⟨(data_origin_validated "pvc-1" "vc" false true "nersc" false 2 none).1
      (by decide) (by decide),
   (data_origin_validated "pvc-1" "vc" false true "checksums" false 2 none).2
      exampleNodes rfl⟩

/-- C7.  Every node list the pipeline returns contains the
`find_files` node for the archive-suffix pattern with
`fail_if_none = tarballs`; in the modelled run semantics, with
`tarballs = True` the normalization phase fails fatally when the merge
brought changes but no file of the merged tree matches the archive
pattern, while with `tarballs = False` a run never fails. -/
theorem archives_mandatory_failure :
    (∀ (d c : String) (v t : Bool) (dor : String) (ucd : Bool) (ldd : Nat)
        (rn : Option (List (String × String))) (ns : List Node),
      pipeline d c v t dor ucd ldd rn = .ok ns →
      Node.find_files "\\.(zip|tgz|tar(\\..+)?)$" t ∈ flatList ns) ∧
    (∀ (fetched : List String) (mF : List String → List String → List String)
        (eF : List String → List String) (s : Store),
      (captureStep fetched s).procMergedFrom ≠
          some (captureStep fetched s).incoming.tip →
      (mF (captureStep fetched s).processed.files
          (captureStep fetched s).incoming.files).any isArchiveName = false →
      runIngestion true fetched mF eF s =
        .error "RuntimeError: find_files: no files found matching \\.(zip|tgz|tar(\\..+)?)$") ∧
    (∀ (fetched : List String) (mF : List String → List String → List String)
        (eF : List String → List String) (s : Store),
      ∃ s', runIngestion false fetched mF eF s = .ok s') := by
  refine ⟨?_, ?_, ?_⟩
  · intro d c v t dor ucd ldd rn ns h
    by_cases h1 : dor = "checksums"
    · subst h1
      rcases rn with _ | r <;>
        · simp only [pipeline, if_pos rfl, if_true, bind, Except.bind,
                     Except.ok.injEq] at h
          subst h
          simp [flatList, flatNode]
    · by_cases h2 : dor = "urls"
      · subst h2
        rcases rn with _ | r <;>
          · simp only [pipeline, if_neg h1, if_pos rfl, if_true, bind,
                       Except.bind, Except.ok.injEq] at h
            subst h
            simp [flatList, flatNode]
      · simp [pipeline, if_neg h1, if_neg h2, bind, Except.bind] at h
  · intro fetched mF eF s hchanged hnone
    unfold runIngestion processStep
    rw [if_neg hchanged]
    simp [hnone, Except.map]
  · intro fetched mF eF s
    unfold runIngestion processStep
    split
    · exact ⟨_, rfl⟩
    · simp only [Bool.false_and, if_neg]
      exact ⟨_, rfl⟩

/-- Witness for C7: the concrete checksums pipeline carries the
`find_files` node with `fail_if_none = True`; a run over a source with
no archive fails when archives are mandatory and succeeds when they are
not. -/
theorem archives_mandatory_failure_witness :
    Node.find_files "\\.(zip|tgz|tar(\\..+)?)$" true ∈ flatList exampleNodes ∧
    runIngestion true ["f.txt"] (fun _ b => b) id
        ⟨"", ⟨0, []⟩, ⟨0, []⟩, ⟨0, []⟩, none, none⟩ =
      .error "RuntimeError: find_files: no files found matching \\.(zip|tgz|tar(\\..+)?)$" ∧
    ∃ s', runIngestion false ["f.txt"] (fun _ b => b) id
        ⟨"", ⟨0, []⟩, ⟨0, []⟩, ⟨0, []⟩, none, none⟩ = .ok s' :=
  ⟨archives_mandatory_failure.1 "pvc-1" "vc" false true "checksums" false 2
      none exampleNodes rfl,
   archives_mandatory_failure.2.1 ["f.txt"] (fun _ b => b) id
      ⟨"", ⟨0, []⟩, ⟨0, []⟩, ⟨0, []⟩, none, none⟩ (by decide) (by decide),
   archives_mandatory_failure.2.2 ["f.txt"] (fun _ b => b) id
      ⟨"", ⟨0, []⟩, ⟨0, []⟩, ⟨0, []⟩, none, none⟩⟩

/-- A record of the checksums pipeline stream: `parse_checksums` yields
`url`, `filename` and the digest value. -/
structure Record where
  url : String
  filename : String
  digest : String
deriving DecidableEq, Repr

/-- Whether `l` ends with the pattern `pat`, where a `none` entry of
`pat` matches any single character (a regex `.`). -/
def tailMatches (pat : List (Option Char)) (l : List Char) : Bool :=
  pat.length ≤ l.length &&
    (List.zip (l.drop (l.length - pat.length)) pat).all
      (fun pc => match pc.2 with
                 | none => true
                 | some ch => pc.1 == ch)

/-- The first alternative of the crcns skip pattern
`(checksums.md5|filelist.txt)$`: `checksums`, one arbitrary character
(the unescaped regex dot), `md5`, at end of string. -/
def skipUrlPattern1 : List (Option Char) :=
  "checksums".toList.map some ++ [none] ++ "md5".toList.map some

/-- The second alternative of the crcns skip pattern: `filelist`, one
arbitrary character, `txt`, at end of string. -/
def skipUrlPattern2 : List (Option Char) :=
  "filelist".toList.map some ++ [none] ++ "txt".toList.map some

/-- Modelled from the spec: `skip_if({'url': ...}, re=True)` matches
its regular expression against the record's `url` field.  This is the
match of the crcns pattern `(checksums.md5|filelist.txt)$`, where `.`
matches any character. -/
def matchesSkipUrl (u : String) : Bool :=
  tailMatches skipUrlPattern1 u.toList || tailMatches skipUrlPattern2 u.toList

/-- Modelled from the spec: the `skip_if` node drops matching records
from the stream and passes all others through unchanged. -/
def skip_if_url (rs : List Record) : List Record :=
  rs.filter (fun r => !(matchesSkipUrl r.url))

lemma tailMatches_append (pat : List (Option Char)) (pre tl : List Char)
    (hlen : tl.length = pat.length)
    (h : tailMatches pat tl = true) :
    tailMatches pat (pre ++ tl) = true := by
  unfold tailMatches at h ⊢
  simp only [Bool.and_eq_true, decide_eq_true_eq] at h ⊢
  obtain ⟨-, h2⟩ := h
  have hd : (pre ++ tl).drop ((pre ++ tl).length - pat.length) = tl := by
    rw [List.length_append, hlen, Nat.add_sub_cancel]
    exact List.drop_left _ _
  rw [hd]
  refine ⟨by simp [List.length_append]; omega, ?_⟩
  rw [hlen, Nat.sub_self, List.drop_zero] at h2
  exact h2

lemma suffix_checksums_matches (u : String)
    (h : List.isSuffixOf "checksums.md5".toList u.toList = true) :
    matchesSkipUrl u = true := by
  rw [List.isSuffixOf_iff_suffix] at h
  obtain ⟨pre, hpre⟩ := h
  have hm : tailMatches skipUrlPattern1 (pre ++ "checksums.md5".toList) = true :=
    tailMatches_append _ _ _ (by decide) (by decide)
  unfold matchesSkipUrl
  rw [← hpre, hm]
  rfl

lemma suffix_filelist_matches (u : String)
    (h : List.isSuffixOf "filelist.txt".toList u.toList = true) :
    matchesSkipUrl u = true := by
  rw [List.isSuffixOf_iff_suffix] at h
  obtain ⟨pre, hpre⟩ := h
  have hm : tailMatches skipUrlPattern2 (pre ++ "filelist.txt".toList) = true :=
    tailMatches_append _ _ _ (by decide) (by decide)
  unfold matchesSkipUrl
  rw [← hpre, hm]
  simp

/-- Counterexample for C8 as stated: the url `data/checksums-md5` does
not end with the literal `checksums.md5` or `filelist.txt`, yet the
regex `(checksums.md5|filelist.txt)$` (unescaped dot) matches it, so
the filter drops the record instead of passing it through. -/
theorem skip_if_literal_claim_false :
    matchesSkipUrl "data/checksums-md5" = true ∧
    List.isSuffixOf "checksums.md5".toList "data/checksums-md5".toList = false ∧
    List.isSuffixOf "filelist.txt".toList "data/checksums-md5".toList = false ∧
    skip_if_url [⟨"data/checksums-md5", "checksums-md5", "d41d8cd9"⟩] = [] := by
  refine ⟨by decide, by decide, by decide, by decide⟩

/-- C8, amended.  In the checksums pipeline the `skip_if` node on the
`url` field precedes the store-add node; every record whose url ends
with the literal `checksums.md5` or `filelist.txt` is dropped, a record
is dropped exactly when the pattern (with `.` matching any single
character) matches its url, and non-matching records pass through to
the store-add step unchanged. -/
theorem skip_if_amended :
    (∀ (d c : String) (v t : Bool) (ucd : Bool) (ldd : Nat)
        (rn : Option (List (String × String))) (ns : List Node),
      pipeline d c v t "checksums" ucd ldd rn = .ok ns →
      ∃ i j : Nat, i < j ∧
        (flatList ns)[i]? =
          some (Node.skip_if "url" "(checksums.md5|filelist.txt)$" true) ∧
        (flatList ns)[j]? = some Node.annex_add) ∧
    (∀ r : Record, List.isSuffixOf "checksums.md5".toList r.url.toList = true →
        matchesSkipUrl r.url = true) ∧
    (∀ r : Record, List.isSuffixOf "filelist.txt".toList r.url.toList = true →
        matchesSkipUrl r.url = true) ∧
    (∀ (rs : List Record) (r : Record), matchesSkipUrl r.url = true →
        r ∉ skip_if_url rs) ∧
    (∀ (rs : List Record) (r : Record), r ∈ rs → matchesSkipUrl r.url = false →
        r ∈ skip_if_url rs) := by
  refine ⟨?_, ?_, ?_, ?_, ?_⟩
  · intro d c v t ucd ldd rn ns h
    rcases rn with _ | r <;>
      · simp only [pipeline, if_pos rfl, if_true, bind, Except.bind,
                   Except.ok.injEq] at h
        subst h
        first
        | exact ⟨3, 4, by omega, rfl, rfl⟩
        | exact ⟨3, 5, by omega, rfl, rfl⟩
  · intro r h
    exact suffix_checksums_matches r.url h
  · intro r h
    exact suffix_filelist_matches r.url h
  · intro rs r h hmem
    unfold skip_if_url at hmem
    rw [List.mem_filter] at hmem
    simp [h] at hmem
  · intro rs r hmem h
    unfold skip_if_url
    rw [List.mem_filter]
    exact ⟨hmem, by simp [h]⟩

/-- Witness for C8 (amended): the skip node precedes the store-add in
the concrete checksums pipeline; a manifest url is dropped while a
payload url passes through unchanged. -/
theorem skip_if_amended_witness :
    (∃ i j : Nat, i < j ∧
      (flatList exampleNodes)[i]? =
        some (Node.skip_if "url" "(checksums.md5|filelist.txt)$" true) ∧
      (flatList exampleNodes)[j]? = some Node.annex_add) ∧
    matchesSkipUrl "https://portal.nersc.gov/project/crcns/download/pvc-1/checksums.md5" = true ∧
    Record.mk "https://portal.nersc.gov/project/crcns/download/pvc-1/checksums.md5" "checksums.md5" "" ∉
      skip_if_url [⟨"https://portal.nersc.gov/project/crcns/download/pvc-1/checksums.md5", "checksums.md5", ""⟩] ∧
    Record.mk "https://portal.nersc.gov/project/crcns/download/pvc-1/data.tar.gz" "data.tar.gz" "" ∈
      skip_if_url [⟨"https://portal.nersc.gov/project/crcns/download/pvc-1/data.tar.gz", "data.tar.gz", ""⟩] :=
  ⟨skip_if_amended.1 "pvc-1" "vc" false true false 2 none exampleNodes rfl,
   skip_if_amended.2.1
     ⟨"https://portal.nersc.gov/project/crcns/download/pvc-1/checksums.md5", "checksums.md5", ""⟩
     (by decide),
   skip_if_amended.2.2.2.1 _
     ⟨"https://portal.nersc.gov/project/crcns/download/pvc-1/checksums.md5", "checksums.md5", ""⟩
     (skip_if_amended.2.1
       ⟨"https://portal.nersc.gov/project/crcns/download/pvc-1/checksums.md5", "checksums.md5", ""⟩
       (by decide)),
   skip_if_amended.2.2.2.2 _
     ⟨"https://portal.nersc.gov/project/crcns/download/pvc-1/data.tar.gz", "data.tar.gz", ""⟩
     (by simp) (by decide)⟩

/-- Python whitespace as stripped by `str.strip()`. -/
def isPyWhitespace (c : Char) : Bool :=
  c == ' ' || c == '\t' || c == '\n' || c == '\r' || c == '\x0b' || c == '\x0c'

/-- Both-ends whitespace strip, as Python `str.strip()`. -/
def pyStrip (l : List Char) : List Char :=
  ((l.dropWhile isPyWhitespace).reverse.dropWhile isPyWhitespace).reverse

/-- The `.?>` step of the regex `AlternativeTitle.?>CRCNS.org ([^<]*)<`
from crcns.py line 67: greedily consume one arbitrary non-newline
character if the next character is then `>`, otherwise fall back to
consuming `>` directly. -/
def dotOptGt : List Char → Option (List Char)
  | [] => none
  | ['>'] => some []
  | [_] => none
  | a :: b :: r =>
    if a != '\n' && b == '>' then some r
    else if a == '>' then some (b :: r) else none

/-- The tail of the regex after `>`: literal `CRCNS.org `, then the
captured group `[^<]*` (greedy), then a literal `<`. -/
def crcnsCapture (r : List Char) : Option (List Char) :=
  if List.isPrefixOf "CRCNS.org ".toList r then
    if ((r.drop 10).dropWhile (fun c => c != '<')).isEmpty then none
    else some ((r.drop 10).takeWhile (fun c => c != '<'))
  else none

/-- Whether the whole regex matches at the start of `cs`, returning the
captured group. -/
def altTitleAt (cs : List Char) : Option (List Char) :=
  if List.isPrefixOf "AlternativeTitle".toList cs then
    (dotOptGt (cs.drop 16)).bind crcnsCapture
  else none

/-- `re.search`: the leftmost position at which the pattern matches. -/
def searchAltTitle : List Char → Option (List Char)
  | [] => none
  | c :: cs =>
    match altTitleAt (c :: cs) with
    | some cap => some cap
    | none => searchAltTitle cs

/-- The dataset identity derived from one datacite document:
`re.search('AlternativeTitle.?>CRCNS.org ([^<]*)<', xml)`, stripped, as
at crcns.py lines 67-73. -/
def datasetNameOf (xml : String) : Option String :=
  (searchAltTitle xml.toList).map (fun cap => String.mk (pyStrip cap))

/-- Embedding of `process_datacite_xml(json_, xml_)` from crcns.py
lines 42-43: its body is `pass`, so it returns `None` for every
document. -/
def processDataciteXml (xml : String) : Option Unit :=
  let _ := xml
  none

/-- The result of `get_metadata`: either the single entry returned
early when the requested dataset is found, or the dictionary over all
discovered datasets. -/
inductive MetaResult where
  | single (meta : Option Unit)
  | table (entries : List (String × Option Unit))
deriving DecidableEq, Repr

/-- Python dict assignment `d[k] = v` on an insertion-ordered
association list: overwrite in place if the key exists, else append. -/
def updateAssoc (k : String) (v : Option Unit) :
    List (String × Option Unit) → List (String × Option Unit)
  | [] => [(k, v)]
  | (k', v') :: rest =>
    if k' = k then (k, v) :: rest else (k', v') :: updateAssoc k v rest

/-- Python `k in d` on the association list. -/
def containsKey (k : String) (l : List (String × Option Unit)) : Bool :=
  l.any (fun p => p.1 == k)

/-- The loop of `get_metadata` (crcns.py lines 64-83) over the decoded
xml documents, carrying the accumulated dict and the warnings logged so
far.  The early return fires when a dataset name was requested
(truthy, so non-empty) and equals the entry's name; otherwise a
duplicate name logs a warning and the dict entry is assigned
unconditionally. -/
def get_metadata_loop (dataset : Option String) :
    List String → List (String × Option Unit) → List String →
    MetaResult × List String
  | [], acc, warns => (.table acc, warns)
  | xml :: rest, acc, warns =>
    match datasetNameOf xml with
    | none =>
      get_metadata_loop dataset rest acc
        (warns ++ ["Failed to determine AlternativeTitle"])
    | some name =>
      if (match dataset with
          | some d => decide (d ≠ "" ∧ d = name)
          | none => false) then
        (.single (processDataciteXml xml), warns)
      else
        get_metadata_loop dataset rest
          (updateAssoc name (processDataciteXml xml) acc)
          (if containsKey name acc then
             warns ++ ["We have already collected entry for dataset " ++ name]
           else warns)

/-- Embedding of `get_metadata(dataset)` from crcns.py lines 46-83,
over the list of decoded xml documents of the datacite response.
Returns the result together with the warnings logged. -/
def get_metadata (docs : List String) (dataset : Option String) :
    MetaResult × List String :=
  get_metadata_loop dataset docs [] []

/-- Modelled from the spec: the duplicate-identity policy of spec
section 7 — "first-seen entry wins, later ones are dropped", with a
warning per duplicate and per unresolvable title. -/
def first_seen_loop :
    List String → List (String × Option Unit) → List String →
    List (String × Option Unit) × List String
  | [], acc, warns => (acc, warns)
  | xml :: rest, acc, warns =>
    match datasetNameOf xml with
    | none =>
      first_seen_loop rest acc
        (warns ++ ["Failed to determine AlternativeTitle"])
    | some name =>
      if containsKey name acc then
        first_seen_loop rest acc
          (warns ++ ["We have already collected entry for dataset " ++ name])
      else
        first_seen_loop rest (acc ++ [(name, processDataciteXml xml)]) warns

lemma updateAssoc_present (k : String) (acc : List (String × Option Unit))
    (hall : ∀ p ∈ acc, p.2 = none) (hk : containsKey k acc = true) :
    updateAssoc k none acc = acc := by
  induction acc with
  | nil => simp [containsKey] at hk
  | cons p rest ih =>
    obtain ⟨k', v'⟩ := p
    by_cases hkk : k' = k
    · subst hkk
      have hv : v' = none := hall (k', v') (by simp)
      subst hv
      simp [updateAssoc]
    · rw [updateAssoc, if_neg hkk]
      have hk' : containsKey k rest = true := by
        simp only [containsKey, List.any_cons, Bool.or_eq_true, beq_iff_eq] at hk
        rcases hk with hk | hk
        · exact absurd hk hkk
        · simpa [containsKey] using hk
      rw [ih (fun p hp => hall p (by simp [hp])) hk']

lemma updateAssoc_absent (k : String) (v : Option Unit)
    (acc : List (String × Option Unit)) (hk : containsKey k acc = false) :
    updateAssoc k v acc = acc ++ [(k, v)] := by
  induction acc with
  | nil => simp [updateAssoc]
  | cons p rest ih =>
    obtain ⟨k', v'⟩ := p
    simp only [containsKey, List.any_cons, Bool.or_eq_false_iff,
               beq_eq_false_iff_ne, ne_eq] at hk
    rw [updateAssoc, if_neg hk.1]
    rw [ih hk.2]
    simp

lemma get_metadata_loop_first_seen (docs : List String)
    (acc : List (String × Option Unit)) (warns : List String)
    (hall : ∀ p ∈ acc, p.2 = none) :
    get_metadata_loop none docs acc warns =
      (.table (first_seen_loop docs acc warns).1,
       (first_seen_loop docs acc warns).2) := by
  induction docs generalizing acc warns with
  | nil => rfl
  | cons xml rest ih =>
    rw [get_metadata_loop, first_seen_loop]
    cases hname : datasetNameOf xml with
    | none => exact ih acc _ hall
    | some name =>
      dsimp only
      rw [if_neg (by simp : ¬(false = true))]
      by_cases hk : containsKey name acc = true
      · simp only [if_pos hk]
        have hupd : updateAssoc name (processDataciteXml xml) acc = acc :=
          updateAssoc_present name acc hall hk
        rw [hupd]
        exact ih acc _ hall
      · simp only [if_neg hk]
        have hupd : updateAssoc name (processDataciteXml xml) acc =
            acc ++ [(name, processDataciteXml xml)] :=
          updateAssoc_absent name _ acc (by simpa using hk)
        rw [hupd]
        refine ih (acc ++ [(name, processDataciteXml xml)]) warns ?_
        intro p hp
        rcases List.mem_append.mp hp with hp | hp
        · exact hall p hp
        · simp at hp
          simp [hp, processDataciteXml]

/-- C5.  With no dataset requested, `get_metadata` returns exactly the
mapping and warnings prescribed by the first-seen-wins policy: a
duplicate dataset identity logs a warning, the first-seen entry's
metadata is what the returned mapping holds for that identity, and
later entries contribute nothing to the mapping (every entry's
metadata is `None`, since `process_datacite_xml` returns `None`, so
the unconditional dict assignment coincides with dropping later
duplicates). -/
theorem duplicate_identity_first_seen (docs : List String) :
    get_metadata docs none =
      (.table (first_seen_loop docs [] []).1,
       (first_seen_loop docs [] []).2) :=
  get_metadata_loop_first_seen docs [] [] (by simp)

lemma get_metadata_loop_miss (d : String) (docs : List String)
    (acc : List (String × Option Unit)) (warns : List String)
    (hmiss : ∀ xml ∈ docs, datasetNameOf xml ≠ some d) :
    get_metadata_loop (some d) docs acc warns =
      get_metadata_loop none docs acc warns := by
  induction docs generalizing acc warns with
  | nil => rfl
  | cons xml rest ih =>
    rw [get_metadata_loop, get_metadata_loop]
    cases hname : datasetNameOf xml with
    | none => exact ih _ _ (fun x hx => hmiss x (by simp [hx]))
    | some name =>
      have hne : name ≠ d := by
        intro hcontra
        exact hmiss xml (by simp) (by simp [hname, hcontra])
      dsimp only
      rw [if_neg (by simp : ¬(false = true))]
      rw [if_neg (show ¬(decide (d ≠ "" ∧ d = name) = true) by
            simp only [decide_eq_true_eq]
            intro hc
            exact hne hc.2.symm)]
      exact ih _ _ (fun x hx => hmiss x (by simp [hx]))

/-- C9.  Requesting a dataset name that matches no discovered dataset
neither raises nor returns an empty/None result: `get_metadata`
returns the full dictionary of all discovered datasets, exactly as if
no name had been given. -/
theorem get_metadata_missing_name_returns_all (docs : List String) (d : String)
    (hmiss : ∀ xml ∈ docs, datasetNameOf xml ≠ some d) :
    get_metadata docs (some d) = get_metadata docs none :=
  get_metadata_loop_miss d docs [] [] hmiss

/-- Witness for C9: a single real datacite document whose
AlternativeTitle resolves to `pvc-1`; requesting the absent name `x`
returns the same full table as requesting nothing. -/
theorem get_metadata_missing_name_returns_all_witness :
    (∀ xml ∈ ["<AlternativeTitle>CRCNS.org pvc-1</AlternativeTitle>"],
        datasetNameOf xml ≠ some "x") ∧
    get_metadata ["<AlternativeTitle>CRCNS.org pvc-1</AlternativeTitle>"]
        (some "x") =
      get_metadata ["<AlternativeTitle>CRCNS.org pvc-1</AlternativeTitle>"]
        none :=
  ⟨by decide,
   get_metadata_missing_name_returns_all
     ["<AlternativeTitle>CRCNS.org pvc-1</AlternativeTitle>"] "x" (by decide)⟩

/-- A page visited by the crawler, as seen by a matcher node: the
href targets found in its content. -/
structure CrawlPage where
  hrefs : List String
deriving DecidableEq, Repr

/-- Match of the superdataset matcher pattern `.*/data-sets/[^#/]+$`
(crcns.py line 92) at some position of the character list: a literal
`/data-sets/` followed by at least one character, none of which is `/`
or `#`, up to the end of the string. -/
def dataSetUrlScan : List Char → Bool
  | [] => false
  | c :: cs =>
    (List.isPrefixOf "/data-sets/".toList (c :: cs) &&
      (let tl := (c :: cs).drop 11
       !tl.isEmpty && tl.all (fun ch => ch != '/' && ch != '#'))) ||
    dataSetUrlScan cs

/-- `re.search('.*/data-sets/[^#/]+$', u)` as used by the superdataset
matcher. -/
def matchesDataSetUrl (u : String) : Bool :=
  dataSetUrlScan u.toList

/-- Modelled from the source comment at crcns.py lines 94-97: the
matcher nodes "don't have state so if they get to the same url from
multiple pages they pass that content twice".  Running a matcher over
the visited pages therefore emits every matching href of every page,
with no memory of hrefs already yielded. -/
def statelessMatcherRun (accepts : String → Bool) (pages : List CrawlPage) :
    List String :=
  (pages.map (fun p => p.hrefs.filter accepts)).flatten

/-- C6 fails on the code: two traversal paths (two visited pages) both
reaching the category page `http://crcns.org/data-sets/vc` make the
stateless matcher yield that locator twice in a single run, not
exactly once as the claim states. -/
theorem matcher_reemits_shared_url :
    statelessMatcherRun matchesDataSetUrl
        [⟨["http://crcns.org/data-sets/vc"]⟩,
         ⟨["http://crcns.org/data-sets/vc"]⟩] =
      ["http://crcns.org/data-sets/vc",
       "http://crcns.org/data-sets/vc"] ∧
    (statelessMatcherRun matchesDataSetUrl
        [⟨["http://crcns.org/data-sets/vc"]⟩,
         ⟨["http://crcns.org/data-sets/vc"]⟩]).count
      "http://crcns.org/data-sets/vc" = 2 := by
  refine ⟨by decide, by decide⟩

/-- Modelled from the spec and `src/datalad/interface/unlock.py` lines
70-79: the body of `Unlock.__call__`.  The argument check is embedded
from the source; everything after it (path resolution, per-dataset
repository access) is not part of the claim and is abstracted into the
`resolvePaths` and `processResolved` collaborators acting on an
abstract repository state `σ`. -/
def unlockCall {σ ρ : Type} (path : Option (List String))
    (dataset : Option String) (recursive : Bool)
    (recursionLimit : Option Nat)
    (resolvePaths : Option (List String) → Option String → σ → σ × ρ)
    (processResolved : ρ → Bool → Option Nat → σ → σ × List String)
    (st : σ) : σ × Except String (List String) :=
  if path = none ∧ dataset = none then
    (st, .error "InsufficientArgumentsError: insufficient arguments for unlocking: needs at least a dataset or a path to unlock.")
  else
    let pr := resolvePaths path dataset st
    let out := processResolved pr.2 recursive recursionLimit pr.1
    (out.1, .ok out.2)

/-- C10.  Calling `Unlock.__call__` with both `path=None` and
`dataset=None` raises `InsufficientArgumentsError` and leaves the
repository state unchanged; the result does not depend on the path
resolution or repository collaborators, so neither has been consulted. -/
theorem unlock_no_arguments_raises {σ ρ : Type} (recursive : Bool)
    (recursionLimit : Option Nat)
    (resolvePaths : Option (List String) → Option String → σ → σ × ρ)
    (processResolved : ρ → Bool → Option Nat → σ → σ × List String)
    (st : σ) :
    unlockCall none none recursive recursionLimit resolvePaths
        processResolved st =
      (st, .error "InsufficientArgumentsError: insufficient arguments for unlocking: needs at least a dataset or a path to unlock.") := by
  unfold unlockCall
  rw [if_pos ⟨rfl, rfl⟩]

end Datalad
